import Mathlib

/-!
Verification development for the AudioPluginHost effect-processor collection.

The C++ effect processors (Source/Plugins/Fx/*.h) are shallowly embedded:
IEEE-754 double/float arithmetic is idealised as exact arithmetic over `ℝ`
(or over `ℚ` where concrete evaluation is needed and every intermediate
value is exactly representable), loops become folds or explicit recursion,
and member mutation becomes explicit state passing.  C++ `int` casts,
truncating `%`, `std::floor`, `std::fmod` on non-negative operands and the
JUCE helpers (`jlimit`, `jmin`, `MemoryInputStream::readFloat`,
`SmoothedValue`) are modelled by the matching exact operations; each such
modelling choice is documented at the definition it concerns.
-/

open Real

namespace FxCommon

/-- Model of `juce::jlimit (lower, upper, value)`:
`value < lower ? lower : (upper < value ? upper : value)`. -/
noncomputable def jlimit (lower upper value : ℝ) : ℝ :=
  if value < lower then lower else if upper < value then upper else value

/-- Model of `FxCommon::AllpassState` (one first-order allpass stage register pair). -/
structure AllpassState where
  x1 : ℝ
  y1 : ℝ

end FxCommon

/-! ### Facts about `Real.tanh` used by several effects

The `tanh`-based limiter of every effect relies on `|tanh| < 1`; the waveshaper
claims also need `0 ≤ tanh x` for `0 ≤ x` and a concrete lower bound. -/

theorem tanh_abs_lt_one (x : ℝ) : |Real.tanh x| < 1 := by
  rw [Real.tanh_eq_sinh_div_cosh, abs_div, abs_of_pos (Real.cosh_pos x),
    div_lt_one (Real.cosh_pos x), Real.abs_sinh]
  calc Real.sinh |x| < Real.cosh |x| := Real.sinh_lt_cosh _
    _ = Real.cosh x := Real.cosh_abs x

theorem tanh_le_one_of (x : ℝ) : Real.tanh x ≤ 1 :=
  le_of_lt (lt_of_le_of_lt (le_abs_self _) (tanh_abs_lt_one x))

theorem tanh_nonneg_of {x : ℝ} (h : 0 ≤ x) : 0 ≤ Real.tanh x := by
  rw [Real.tanh_eq_sinh_div_cosh]
  exact div_nonneg (Real.sinh_nonneg_iff.2 h) (Real.cosh_pos x).le

/-- A crude saturation bound sufficient for the unboundedness argument:
`tanh x ≥ 1/3` once `x ≥ 1`. -/
theorem tanh_ge_one_third {x : ℝ} (hx : 1 ≤ x) : (1/3 : ℝ) ≤ Real.tanh x := by
  have hE : x + 1 ≤ Real.exp x := Real.add_one_le_exp x
  have hE2 : (2 : ℝ) ≤ Real.exp x := by linarith
  have hE'pos : (0 : ℝ) < Real.exp (-x) := Real.exp_pos _
  have hmul : Real.exp x * Real.exp (-x) = 1 := by
    rw [← Real.exp_add]; norm_num
  rw [Real.tanh_eq_sinh_div_cosh, Real.sinh_eq, Real.cosh_eq]
  rw [div_le_div_iff₀ (by norm_num) (by positivity)]
  nlinarith [mul_le_mul_of_nonneg_left hE2 hE'pos.le]

/-- A concrete lower bound: `tanh (1989/4) > 1969/1989`.
(`1989/4 = 497.25` is the scaled overshoot that appears when the soft
diode clip is evaluated at input `100`.) -/
theorem tanh_lower_bound_concrete : (1969 / 1989 : ℝ) < Real.tanh (1989 / 4) := by
  have hE : (1989 / 4 : ℝ) + 1 ≤ Real.exp (1989 / 4) := Real.add_one_le_exp _
  have hEpos : (0 : ℝ) < Real.exp (1989 / 4) := Real.exp_pos _
  have hE'pos : (0 : ℝ) < Real.exp (-(1989 / 4)) := Real.exp_pos _
  have hmul : Real.exp (1989 / 4) * Real.exp (-(1989 / 4)) = 1 := by
    rw [← Real.exp_add]; norm_num
  rw [Real.tanh_eq_sinh_div_cosh, Real.sinh_eq, Real.cosh_eq]
  rw [div_lt_div_iff₀ (by norm_num) (by positivity)]
  nlinarith [mul_pos hEpos hE'pos, mul_le_mul_of_nonneg_left hE hE'pos.le]

namespace BigMuffFuzz

/-- Model of `BigMuffFuzz::softDiodeClip (v, threshold, knee)`:
```
double absV = std::abs(v);
if (absV <= threshold - knee) return v;
double sign = (v >= 0.0) ? 1.0 : -1.0;
double over = absV - (threshold - knee);
double clampAmount = (std::tanh(over / knee)) * (absV - (threshold - knee));
double outAbs = (threshold - knee) + clampAmount;
return sign * outAbs;
```
The local `diodeClamp` lambda of `GainProcessor::processSampleInternal` is this
same body with `threshold = 0.6`, `knee = 0.2`. -/
noncomputable def softDiodeClip (v threshold knee : ℝ) : ℝ :=
  if |v| ≤ threshold - knee then v
  else
    let sign : ℝ := if 0 ≤ v then 1 else -1
    let over := |v| - (threshold - knee)
    let clampAmount := Real.tanh (over / knee) * (|v| - (threshold - knee))
    let outAbs := (threshold - knee) + clampAmount
    sign * outAbs

end BigMuffFuzz

namespace GainProcessor

/-- The `diodeClamp` lambda of `GainProcessor::processSampleInternal`
(`diodeThresh = 0.6`, `knee = 0.2`), literally the `softDiodeClip` body. -/
noncomputable def diodeClamp (v : ℝ) : ℝ :=
  if |v| ≤ (0.6 : ℝ) - 0.2 then v
  else
    let sign : ℝ := if 0 ≤ v then 1 else -1
    let over := |v| - ((0.6 : ℝ) - 0.2)
    let clampAmount := Real.tanh (over / 0.2) * (|v| - ((0.6 : ℝ) - 0.2))
    let outAbs := ((0.6 : ℝ) - 0.2) + clampAmount
    sign * outAbs

theorem diodeClamp_eq_softDiodeClip (v : ℝ) :
    diodeClamp v = BigMuffFuzz.softDiodeClip v 0.6 0.2 := rfl

end GainProcessor

/-- C3 counterexample: the waveshaper is *not* bounded near the threshold.
With `threshold = 3/4`, `knee = 1/5` (the first Big Muff stage uses
`0.75, 0.20`), the input `v = 100` produces an output above `99`:
`tanh(over/knee)*over ≈ over`, so the function is asymptotically the
identity, exceeding `threshold + knee·const` for every const `< 491`. -/
theorem c3_softclip_unbounded_counterexample :
    (99 : ℝ) < BigMuffFuzz.softDiodeClip 100 (3 / 4) (1 / 5) := by
  have hbranch : ¬ (|(100 : ℝ)| ≤ 3 / 4 - 1 / 5) := by
    rw [abs_of_pos]; norm_num; norm_num
  rw [BigMuffFuzz.softDiodeClip, if_neg hbranch]
  have hsign : (if (0 : ℝ) ≤ 100 then (1 : ℝ) else -1) = 1 := if_pos (by norm_num)
  have harg : (|(100 : ℝ)| - (3 / 4 - 1 / 5)) / (1 / 5) = 1989 / 4 := by
    rw [abs_of_pos (by norm_num : (0:ℝ) < 100)]; norm_num
  have habs : |(100 : ℝ)| - (3 / 4 - 1 / 5) = 1989 / 20 := by
    rw [abs_of_pos (by norm_num : (0:ℝ) < 100)]; norm_num
  simp only [hsign, harg, habs, one_mul]
  nlinarith [tanh_lower_bound_concrete]

/-- C3 (amended): for `0 < knee < threshold` the waveshaper passes
`|v| ≤ threshold - knee` through unchanged, preserves the sign of the
input, and its magnitude never exceeds the input magnitude — but it is
*unbounded*: for every bound `B` some input drives the output above `B`
(`clampAmount = tanh(over/knee) * over` grows linearly in the overshoot),
refuting the claimed `threshold + knee*const` bound for every constant. -/
theorem c3_softclip_passthrough_sign_abs_le (threshold knee v : ℝ)
    (hk : 0 < knee) (hkt : knee < threshold) :
    ((|v| ≤ threshold - knee → BigMuffFuzz.softDiodeClip v threshold knee = v) ∧
     (0 < v → 0 < BigMuffFuzz.softDiodeClip v threshold knee) ∧
     (v < 0 → BigMuffFuzz.softDiodeClip v threshold knee < 0) ∧
     |BigMuffFuzz.softDiodeClip v threshold knee| ≤ |v|) ∧
    (∀ B : ℝ, ∃ w, B < BigMuffFuzz.softDiodeClip w threshold knee) := by
  have htk : 0 < threshold - knee := sub_pos.2 hkt
  refine ⟨?_, ?_⟩
  case refine_2 =>
    intro B
    set w := (threshold - knee) + knee + 3 * (|B| + 1) with hw
    have hBpos : (0 : ℝ) ≤ |B| := abs_nonneg B
    have hwpos : 0 < w := by positivity
    have habs : |w| = w := abs_of_pos hwpos
    have hnotb : ¬ (|w| ≤ threshold - knee) := by rw [habs]; push_neg; nlinarith
    have hover : |w| - (threshold - knee) = knee + 3 * (|B| + 1) := by rw [habs]; ring
    have hratio : 1 ≤ (|w| - (threshold - knee)) / knee := by
      rw [hover, le_div_iff₀ hk]; nlinarith
    have htanh := tanh_ge_one_third hratio
    rw [hover] at htanh
    refine ⟨w, ?_⟩
    rw [BigMuffFuzz.softDiodeClip, if_neg hnotb]
    simp only [if_pos hwpos.le, one_mul]
    rw [hover]
    nlinarith [le_abs_self B]
  case refine_1 =>
    by_cases hb : |v| ≤ threshold - knee
    · refine ⟨fun _ => if_pos hb, ?_, ?_, ?_⟩
      · intro _; rw [BigMuffFuzz.softDiodeClip, if_pos hb]; assumption
      · intro _; rw [BigMuffFuzz.softDiodeClip, if_pos hb]; assumption
      · rw [BigMuffFuzz.softDiodeClip, if_pos hb]
    · have hover : 0 ≤ |v| - (threshold - knee) := by
        have := lt_of_not_le hb; linarith
      have htanh0 : 0 ≤ Real.tanh ((|v| - (threshold - knee)) / knee) :=
        tanh_nonneg_of (div_nonneg hover hk.le)
      have htanh1 : Real.tanh ((|v| - (threshold - knee)) / knee) ≤ 1 :=
        tanh_le_one_of _
      have houtAbs0 : 0 < (threshold - knee) +
          Real.tanh ((|v| - (threshold - knee)) / knee) * (|v| - (threshold - knee)) := by
        nlinarith
      have houtAbsLe : (threshold - knee) +
          Real.tanh ((|v| - (threshold - knee)) / knee) * (|v| - (threshold - knee)) ≤ |v| := by
        nlinarith
      refine ⟨fun h => absurd h hb, ?_, ?_, ?_⟩
      · intro hv
        rw [BigMuffFuzz.softDiodeClip, if_neg hb]
        simp only [if_pos hv.le, one_mul]
        exact houtAbs0
      · intro hv
        rw [BigMuffFuzz.softDiodeClip, if_neg hb]
        simp only [if_neg (not_le.2 hv), neg_one_mul, neg_neg]
        linarith
      · rw [BigMuffFuzz.softDiodeClip, if_neg hb]
        by_cases hv : 0 ≤ v
        · simp only [if_pos hv, one_mul]
          rw [abs_of_pos houtAbs0]; exact houtAbsLe
        · simp only [if_neg hv, neg_one_mul, abs_neg]
          rw [abs_of_pos houtAbs0]; exact houtAbsLe

/-- C3 witness: the amended theorem applied at `threshold = 3/4`,
`knee = 1/5`, `v = -2`. -/
theorem c3_softclip_witness :
    |BigMuffFuzz.softDiodeClip (-2) (3 / 4) (1 / 5)| ≤ |(-2 : ℝ)| :=
  (c3_softclip_passthrough_sign_abs_le (3 / 4) (1 / 5) (-2)
    (by norm_num) (by norm_num)).1.2.2.2

/-- The sequential coefficient clamp of the source,
`if (x < 0.0) x = 0.0; if (x > 1.0) x = 1.0;`, shared by every
coefficient update. -/
noncomputable def clampSeqZeroOne (a : ℝ) : ℝ :=
  let a1 := if a < 0 then 0 else a
  if 1 < a1 then 1 else a1

theorem clampSeqZeroOne_mem (a : ℝ) :
    0 ≤ clampSeqZeroOne a ∧ clampSeqZeroOne a ≤ 1 := by
  dsimp only [clampSeqZeroOne]
  constructor <;> split_ifs <;> linarith

namespace AnalogDelay

/-- The four `AnalogDelay` parameters. `delay`, `mix`, `regen` are
`AudioParameterFloat` with range `[0,1]` (so the stored value equals the
normalized value); `bypass` is an `AudioParameterBool`.  Parametric in the
scalar type so that the serialization layer can be evaluated over `ℚ`. -/
structure Params (q : Type) where
  delay : q
  mix : q
  regen : q
  bypass : Bool

/-- The `AnalogDelay` DSP state: the circular delay buffer, its size, the
write cursor, the stored sample rate, the (mono) feedback-filter register
`fbState[0]`, and the feedback-coefficient cache. -/
structure State where
  delayBuffer : List ℝ
  bufferSize : ℤ
  writeIndex : ℤ
  sampleRate : ℝ
  fbState : ℝ
  lastFbCutoff : ℝ
  fbAlpha : ℝ

/-- Model of `static constexpr double minDelayMilliseconds = 20.0`. -/
noncomputable def minDelayMilliseconds : ℝ := 20

/-- Model of `static constexpr double maxDelayMilliseconds = 650.0`. -/
noncomputable def maxDelayMilliseconds : ℝ := 650

/-- Model of `static constexpr double regenScale = 0.33` (idealised as `33/100`). -/
noncomputable def regenScale : ℝ := 0.33

/-- Model of `AnalogDelay::updateFeedbackCoeffsIfNeeded (regenVal)`: recompute the
feedback one-pole coefficient `fbAlpha = 1 - e^(-2*pi*cutoff/fs)` only when
the mapped cutoff moved by more than 1 Hz, then clamp it into `[0,1]` by
the two sequential `if` statements of the source. -/
noncomputable def updateFeedbackCoeffsIfNeeded (s : State) (regenVal : ℝ) : State :=
  let minFc : ℝ := 800
  let maxFc : ℝ := 6000
  let cutoff := maxFc * (1 - regenVal) + minFc * regenVal
  if 1 < |cutoff - s.lastFbCutoff| then
    { s with lastFbCutoff := cutoff,
             fbAlpha := clampSeqZeroOne (1 - Real.exp (-2 * Real.pi * cutoff / s.sampleRate)) }
  else s

/-- Model of `AnalogDelay::updateFeedbackCoeffs ()` (the unconditional variant
called from `prepareToPlay`), reading the scaled `regen` parameter. -/
noncomputable def updateFeedbackCoeffs (s : State) (regenParam : ℝ) : State :=
  let r := regenParam * regenScale
  let minFc : ℝ := 800
  let maxFc : ℝ := 6000
  let cutoff := maxFc * (1 - r) + minFc * r
  { s with lastFbCutoff := cutoff,
           fbAlpha := clampSeqZeroOne (1 - Real.exp (-2 * Real.pi * cutoff / s.sampleRate)) }

/-- Model of `AnalogDelay::prepareToPlay (sampleRateIn, _)`: stores the incoming
sample rate **unchanged** (`sampleRate = sampleRateIn`, no positivity
guard), sizes the buffer to `ceil(650*fs/1000) + 4` zeroed samples, resets
the cursors and the feedback filter, and recomputes the coefficients. -/
noncomputable def prepareToPlay (p : Params ℝ) (fs : ℝ) : State :=
  let maxSamples : ℤ := ⌈maxDelayMilliseconds * fs / 1000⌉ + 4
  let s0 : State :=
    { delayBuffer := List.replicate maxSamples.toNat 0
      bufferSize := maxSamples
      writeIndex := 0
      sampleRate := fs
      fbState := 0
      lastFbCutoff := -1
      fbAlpha := 1 }
  updateFeedbackCoeffs s0 p.regen

/-- Model of `AnalogDelay::processSampleInternal (in, ch)` (mono channel): the
logarithmic delay-time map, fractional-interpolated circular-buffer read
(the `while (readPos < 0) readPos += bufferSize` loop is written in closed
form), feedback lowpass, saturated buffer write, dry/wet mix and the final
`tanh(out * 10)` limiter.  C++ `int` truncating `%` is `Int.tmod` (both
operands are non-negative here). -/
noncomputable def processSampleInternal (p : Params ℝ) (s : State) (input : ℝ) :
    State × ℝ :=
  let delayMs := minDelayMilliseconds * (maxDelayMilliseconds / minDelayMilliseconds) ^ p.delay
  let delaySamples := delayMs * s.sampleRate / 1000
  let readPos0 := (s.writeIndex : ℝ) - delaySamples
  let readPos :=
    if readPos0 < 0 then
      readPos0 + ((⌈-readPos0 / (s.bufferSize : ℝ)⌉ : ℤ) : ℝ) * (s.bufferSize : ℝ)
    else readPos0
  let idxA := (⌊readPos⌋).tmod s.bufferSize
  let idxB := (idxA + 1).tmod s.bufferSize
  let frac := readPos - (⌊readPos⌋ : ℝ)
  let delayed := s.delayBuffer.getD idxA.toNat 0 * (1 - frac) +
    s.delayBuffer.getD idxB.toNat 0 * frac
  let regenGain := p.regen * regenScale
  let s1 := updateFeedbackCoeffsIfNeeded s regenGain
  let fbIn := delayed * regenGain
  let fbFiltered := s1.fbAlpha * fbIn + (1 - s1.fbAlpha) * s1.fbState
  let s2 := { s1 with fbState := fbFiltered }
  let toWrite := Real.tanh ((input + fbFiltered * 0.95) * 3)
  let s3 := { s2 with
    delayBuffer := s2.delayBuffer.set s2.writeIndex.toNat toWrite
    writeIndex := if s2.bufferSize ≤ s2.writeIndex + 1 then 0 else s2.writeIndex + 1 }
  let out := (1 - p.mix) * input + p.mix * delayed
  (s3, Real.tanh (out * 10))

/-- Model of `AnalogDelay::getStateInformation`: four little-endian 32-bit floats in
declaration order (`delay`, `mix`, `regen`, `bypass` as `0.0/1.0`),
modelled at float granularity over `ℚ`. -/
def getStateInformation (p : Params ℚ) : List ℚ :=
  [p.delay, p.mix, p.regen, if p.bypass then 1 else 0]

/-- Model of `juce::MemoryInputStream::readFloat` at float granularity:
`InputStream::readFloat` calls `readInt`, which returns `0` whenever fewer
than 4 bytes remain, so a read past the end yields `0.0f` (it never
fails or throws). -/
def readFloat : List ℚ → ℚ × List ℚ
  | [] => (0, [])
  | x :: rest => (x, rest)

/-- Model of `AnalogDelay::setStateInformation (data, sizeInBytes)`: four
unconditional `setValueNotifyingHost (stream.readFloat())` calls in
declaration order.  The prior parameter values are threaded through only
to express that the source never consults them: every parameter is
(re)assigned from the stream, a missing float reading as `0`.
`AudioParameterBool` interprets a normalized float `v` as `0.5 <= v`. -/
def setStateInformation (_prior : Params ℚ) (stream : List ℚ) : Params ℚ :=
  let r1 := readFloat stream
  let r2 := readFloat r1.2
  let r3 := readFloat r2.2
  let r4 := readFloat r3.2
  { delay := r1.1, mix := r2.1, regen := r3.1, bypass := (1/2 : ℚ) ≤ r4.1 }

end AnalogDelay

namespace GainProcessor

/-- Model of `GainProcessor` (RAT distortion) parameters: `drive`, `filter`,
`volume` in `[0,1]`, `bypass` boolean. -/
structure Params where
  drive : ℝ
  filter : ℝ
  volume : ℝ
  bypass : Bool

/-- Model of `GainProcessor` DSP state: stored sample rate, the (mono) lowpass
register `lowpassState[0]` and the cutoff/coefficient cache. -/
structure State where
  sampleRate : ℝ
  lowpassState : ℝ
  lastCutoff : ℝ
  lpAlpha : ℝ

/-- Model of `GainProcessor::updateFilterCoeffs ()`: map the filter knob
exponentially onto `[475, 32000]` Hz, compute
`lpAlpha = 1 - e^(-2*pi*cutoff/fs)` and clamp it into `[0,1]` via the two
sequential `if` statements of the source. -/
noncomputable def updateFilterCoeffs (s : State) (fVal : ℝ) : State :=
  let cutoff := 475 * ((32000 / 475 : ℝ) ^ fVal)
  { s with lastCutoff := cutoff,
           lpAlpha := clampSeqZeroOne (1 - Real.exp (-2 * Real.pi * cutoff / s.sampleRate)) }

/-- Model of `GainProcessor::updateFilterCoeffsIfNeeded ()`: same as
`updateFilterCoeffs` but gated on the cutoff moving by more than 1 Hz. -/
noncomputable def updateFilterCoeffsIfNeeded (s : State) (fVal : ℝ) : State :=
  let cutoff := 475 * ((32000 / 475 : ℝ) ^ fVal)
  if 1 < |cutoff - s.lastCutoff| then
    { s with lastCutoff := cutoff,
             lpAlpha := clampSeqZeroOne (1 - Real.exp (-2 * Real.pi * cutoff / s.sampleRate)) }
  else s

/-- Model of `GainProcessor::processSampleInternal (in, ch)` (mono channel):
drive pre-gain in dB, `tanh` op-amp stage, diode clamp mixed at `0.85`,
one-pole lowpass tone stage, volume gain, and the final `tanh(out * 10)`
limiter. -/
noncomputable def processSampleInternal (p : Params) (s : State) (input : ℝ) :
    State × ℝ :=
  let driveDb := p.drive * 36 - 6
  let preGain := (10 : ℝ) ^ (driveDb / 20)
  let x0 := input * preGain
  let x1 := Real.tanh (2 * x0)
  let clipped := diodeClamp x1
  let x2 := (1 - 0.85) * x1 + 0.85 * clipped
  let s1 := updateFilterCoeffsIfNeeded s p.filter
  let y := s1.lpAlpha * x2 + (1 - s1.lpAlpha) * s1.lowpassState
  let s2 := { s1 with lowpassState := y }
  let volDb := p.volume * 66 - 60
  let outGain := (10 : ℝ) ^ (volDb / 20)
  let out := y * outGain
  (s2, Real.tanh (out * 10))

end GainProcessor

/-- C4 counterexample: deserializing a truncated buffer holding a single
float `[1/4]` into an `AnalogDelay` whose parameters were all at their
default (`delay = mix = regen = 1/2`, `bypass = false`) sets `mix` to `0`
instead of leaving it at its prior value `1/2` (JUCE `readFloat` reads
`0.0` past the end and the code assigns it unconditionally). -/
theorem c4_truncated_state_counterexample :
    (AnalogDelay.setStateInformation ⟨1/2, 1/2, 1/2, false⟩ [1/4]).mix = 0 ∧
      ((0 : ℚ) ≠ 1/2) := by
  refine ⟨?_, by norm_num⟩
  norm_num [AnalogDelay.setStateInformation, AnalogDelay.readFloat]

/-- C4 (amended): `setStateInformation` on a serialized state truncated to
its first `k` floats never fails; it applies the floats that are present
in declaration order, and sets every parameter whose float is missing to
`0` (`false` for `bypass`) — not to its prior value. -/
theorem c4_truncated_state_partial_apply (prior p : AnalogDelay.Params ℚ) (k : ℕ) :
    AnalogDelay.setStateInformation prior ((AnalogDelay.getStateInformation p).take k) =
      { delay := if 1 ≤ k then p.delay else 0
        mix := if 2 ≤ k then p.mix else 0
        regen := if 3 ≤ k then p.regen else 0
        bypass := if 4 ≤ k then p.bypass else false } := by
  match k with
  | 0 =>
    norm_num [AnalogDelay.setStateInformation, AnalogDelay.getStateInformation,
      AnalogDelay.readFloat]
  | 1 =>
    norm_num [AnalogDelay.setStateInformation, AnalogDelay.getStateInformation,
      AnalogDelay.readFloat]
  | 2 =>
    norm_num [AnalogDelay.setStateInformation, AnalogDelay.getStateInformation,
      AnalogDelay.readFloat]
  | 3 =>
    norm_num [AnalogDelay.setStateInformation, AnalogDelay.getStateInformation,
      AnalogDelay.readFloat]
  | (n + 4) =>
    have h1 : 1 ≤ n + 4 := by omega
    have h2 : 2 ≤ n + 4 := by omega
    have h3 : 3 ≤ n + 4 := by omega
    have h4 : 4 ≤ n + 4 := by omega
    simp only [if_pos h1, if_pos h2, if_pos h3, if_pos h4,
      AnalogDelay.getStateInformation, List.take_succ_cons, List.take_nil,
      AnalogDelay.setStateInformation, AnalogDelay.readFloat]
    cases hb : p.bypass <;> norm_num

/-- C6: the one-pole smoothing coefficients are always clamped into
`[0,1]` after the update functions run — unconditionally for
`GainProcessor::updateFilterCoeffs`, and for
`AnalogDelay::updateFeedbackCoeffsIfNeeded` whenever the cached
coefficient already was in `[0,1]` (which `prepareToPlay` establishes);
this holds for every real sample rate and parameter value, so in
particular for cutoffs at/above Nyquist and near 0 Hz. -/
theorem c6_coefficients_clamped_unit_interval :
    (∀ (s : GainProcessor.State) (fVal : ℝ),
        0 ≤ (GainProcessor.updateFilterCoeffs s fVal).lpAlpha ∧
          (GainProcessor.updateFilterCoeffs s fVal).lpAlpha ≤ 1) ∧
    (∀ (s : AnalogDelay.State) (regenVal : ℝ),
        0 ≤ s.fbAlpha → s.fbAlpha ≤ 1 →
        0 ≤ (AnalogDelay.updateFeedbackCoeffsIfNeeded s regenVal).fbAlpha ∧
          (AnalogDelay.updateFeedbackCoeffsIfNeeded s regenVal).fbAlpha ≤ 1) := by
  constructor
  · intro s fVal
    exact clampSeqZeroOne_mem _
  · intro s regenVal h0 h1
    dsimp only [AnalogDelay.updateFeedbackCoeffsIfNeeded]
    split_ifs with hgate
    · exact clampSeqZeroOne_mem _
    · exact ⟨h0, h1⟩

/-- C6 witness: the clamp theorem applied at a concrete state
(`fs = 44100`, cached `fbAlpha = 1/2`, `lastFbCutoff = -1`). -/
theorem c6_coefficients_clamped_witness :
    0 ≤ (AnalogDelay.updateFeedbackCoeffsIfNeeded ⟨[], 0, 0, 44100, 0, -1, 1/2⟩ 0).fbAlpha ∧
      (AnalogDelay.updateFeedbackCoeffsIfNeeded ⟨[], 0, 0, 44100, 0, -1, 1/2⟩ 0).fbAlpha ≤ 1 :=
  c6_coefficients_clamped_unit_interval.2 ⟨[], 0, 0, 44100, 0, -1, 1/2⟩ 0
    (by norm_num) (by norm_num)

/-- C1 (amended): for the effects whose per-sample path ends in a `tanh`
safety-limiter stage — in particular the analog delay (`tanh(out*10)`) and
the RAT distortion (`tanh(out*10)`) — the processed per-sample output lies
strictly within `(-1, 1)` for every parameter vector, every internal state
and every real input (hence in particular for `[0,1]` parameters and
`|x| ≤ 1`).  The phaser and the gain booster have no final limiter stage
and do not satisfy the `[-1,1]` bound (see the counterexample). -/
theorem c1_tanh_limited_output_bounded :
    (∀ (p : AnalogDelay.Params ℝ) (s : AnalogDelay.State) (x : ℝ),
        |(AnalogDelay.processSampleInternal p s x).2| < 1) ∧
    (∀ (p : GainProcessor.Params) (s : GainProcessor.State) (x : ℝ),
        |(GainProcessor.processSampleInternal p s x).2| < 1) :=
  ⟨fun _ _ _ => tanh_abs_lt_one _, fun _ _ _ => tanh_abs_lt_one _⟩

namespace GainBoost

/-- Model of `juce::SmoothedValue<float>` (linear), field for field.  The default
constructor initialises the current and target values to `0`. -/
structure SmoothedValue where
  currentValue : ℚ
  target : ℚ
  step : ℚ
  countdown : ℤ
  stepsToTarget : ℤ

/-- Default-constructed `SmoothedValue<float>`. -/
def SmoothedValue.init : SmoothedValue := ⟨0, 0, 0, 0, 0⟩

/-- Model of `SmoothedValue::reset (sampleRate, rampLengthInSeconds)`:
`stepsToTarget = (int) floor (rampLengthInSeconds * sampleRate)`, the
countdown is cleared and the current value snaps to the target. -/
def SmoothedValue.reset (s : SmoothedValue) (sampleRate rampLengthSeconds : ℚ) :
    SmoothedValue :=
  { s with stepsToTarget := ⌊rampLengthSeconds * sampleRate⌋
           countdown := 0
           currentValue := s.target }

/-- Model of `SmoothedValue::setTargetValue (v)`. -/
def SmoothedValue.setTargetValue (s : SmoothedValue) (v : ℚ) : SmoothedValue :=
  if v = s.target then s
  else if s.stepsToTarget ≤ 0 then { s with currentValue := v, target := v, countdown := 0 }
  else
    { s with target := v
             countdown := s.stepsToTarget
             step := (v - s.currentValue) / (s.stepsToTarget : ℚ) }

/-- Model of `SmoothedValue::getNextValue ()`: when not smoothing return the
target, else decrement the countdown and advance by `step` (snapping to
the target on the final step). -/
def SmoothedValue.getNextValue (s : SmoothedValue) : SmoothedValue × ℚ :=
  if s.countdown ≤ 0 then (s, s.target)
  else
    let c := s.countdown - 1
    if 0 < c then
      let cur := s.currentValue + s.step
      ({ s with countdown := c, currentValue := cur }, cur)
    else ({ s with countdown := c, currentValue := s.target }, s.target)

/-- Model of `GainBoostProcessor::calculateCircuitGain (knobPosition)`:
`R5 = knob * 500k`, `gain = 1 + (R4 + R5)/R6`, `jmin (gain, 20)`.
Since `1 + 56000/2700 > 20`, the clamp makes the result exactly `20` for
every knob position in `[0,1]`. -/
def calculateCircuitGain (knobPosition : ℚ) : ℚ :=
  let R4 : ℚ := 56000
  let R5max : ℚ := 500000
  let R6 : ℚ := 2700
  let R5 := knobPosition * R5max
  let gain := 1 + (R4 + R5) / R6
  min gain 20

/-- Model of `GainBoostProcessor::prepareToPlay (sampleRate, _)`:
`smoothedGain.reset (sampleRate, 0.05)` (the double literal `0.05` times
`44100` floors to `2205` exactly as the exact `1/20` does). -/
def prepareToPlay (fs : ℚ) (sm : SmoothedValue) : SmoothedValue :=
  sm.reset fs (1/20)

/-- The per-sample loop of `GainBoostProcessor::processBlock`:
`channelData[sample] *= smoothedGain.getNextValue()`. -/
def applyGain : SmoothedValue → List ℚ → SmoothedValue × List ℚ
  | sm, [] => (sm, [])
  | sm, x :: rest =>
    let r := SmoothedValue.getNextValue sm
    let rest' := applyGain r.1 rest
    (rest'.1, x * r.2 :: rest'.2)

/-- Model of `GainBoostProcessor::processBlock (buffer, _)` (mono):
early-out on bypass, otherwise
`smoothedGain.setTargetValue (calculateCircuitGain (*gainParam))`
followed by the per-sample multiply loop.  No limiter stage follows. -/
def processBlock (bypass : Bool) (gainParam : ℚ) (sm : SmoothedValue)
    (input : List ℚ) : SmoothedValue × List ℚ :=
  if bypass then (sm, input)
  else applyGain (sm.setTargetValue (calculateCircuitGain gainParam)) input

/-- Closed form of the ramp: while the countdown exceeds the number of
samples, sample `k` of a block of ones is `currentValue + (k+1)*step`. -/
theorem applyGain_replicate_one (n : ℕ) (sm : SmoothedValue)
    (hcd : (n : ℤ) < sm.countdown) :
    (applyGain sm (List.replicate n 1)).2 =
      (List.range n).map (fun k : ℕ => sm.currentValue + ((k : ℚ) + 1) * sm.step) := by
  induction n generalizing sm with
  | zero => simp [applyGain]
  | succ m ih =>
    have hne : ¬ sm.countdown ≤ 0 := by push_cast at hcd; omega
    have hc : 0 < sm.countdown - 1 := by push_cast at hcd; omega
    have hstep : SmoothedValue.getNextValue sm =
        ({ sm with countdown := sm.countdown - 1
                   currentValue := sm.currentValue + sm.step },
          sm.currentValue + sm.step) := by
      simp only [SmoothedValue.getNextValue, if_neg hne, if_pos hc]
    have hcd2 : (m : ℤ) < sm.countdown - 1 := by push_cast at hcd ⊢; omega
    rw [List.replicate_succ]
    simp only [applyGain, hstep]
    rw [ih _ hcd2]
    rw [List.range_succ_eq_map]
    simp only [List.map_cons, List.map_map, Nat.cast_zero, zero_add, one_mul]
    congr 1
    norm_num
    intro a _
    ring

end GainBoost

/-- C1 counterexample: the gain booster (`GainBoostProcessor`) has no
limiter stage: after `prepareToPlay (44100)` (linear ramp of 2205 steps)
and one non-bypassed block of 111 unit samples (`|x| ≤ 1`, gain knob at
`1/2 ∈ [0,1]`, circuit gain clamped to exactly `20`), output sample 110 is
`148/147 > 1`, outside `[-1, 1]`. -/
theorem c1_gain_boost_exceeds_unity_counterexample :
    (GainBoost.processBlock false (1/2)
        (GainBoost.prepareToPlay 44100 GainBoost.SmoothedValue.init)
        (List.replicate 111 1)).2.getD 110 0 = 148/147 ∧
      (1 : ℚ) < 148/147 := by
  have hprep : GainBoost.prepareToPlay 44100 GainBoost.SmoothedValue.init =
      ⟨0, 0, 0, 0, 2205⟩ := by
    simp only [GainBoost.prepareToPlay, GainBoost.SmoothedValue.reset,
      GainBoost.SmoothedValue.init]
    norm_num
  have hgain : GainBoost.calculateCircuitGain (1/2) = 20 := by
    rw [GainBoost.calculateCircuitGain]
    norm_num [min_eq_right]
  have hset : GainBoost.SmoothedValue.setTargetValue ⟨0, 0, 0, 0, 2205⟩ 20 =
      ⟨0, 20, 4/441, 2205, 2205⟩ := by
    rw [GainBoost.SmoothedValue.setTargetValue]
    norm_num
  refine ⟨?_, by norm_num⟩
  simp only [GainBoost.processBlock, hprep, hgain, hset]
  rw [if_neg (by simp), GainBoost.applyGain_replicate_one 111 _ (by norm_num)]
  rw [List.getD_eq_getElem?_getD, List.getElem?_map,
    List.getElem?_range (by norm_num : (110:ℕ) < 111)]
  norm_num

namespace Phase90

/-- Model of `Phase90Processor` parameters: the `rate` float (0.05–6 Hz) and the
`bypass` boolean. -/
structure Params where
  rate : ℝ
  bypass : Bool

/-- Model of `Phase90Processor` DSP state (mono channel 0): stored sample rate,
LFO phase accumulator, DC-blocker registers and coefficient, and the four
cascaded allpass stage registers. -/
structure State where
  sampleRate : ℝ
  lfoPhase : ℝ
  hpPrevIn : ℝ
  hpPrevOut : ℝ
  hpCoeff : ℝ
  ap0 : FxCommon.AllpassState
  ap1 : FxCommon.AllpassState
  ap2 : FxCommon.AllpassState
  ap3 : FxCommon.AllpassState

/-- Model of `Phase90Processor::resetState ()`: zero the LFO phase, the allpass
registers and the DC-blocker registers. -/
def resetState (s : State) : State :=
  { s with lfoPhase := 0, hpPrevIn := 0, hpPrevOut := 0,
           ap0 := ⟨0, 0⟩, ap1 := ⟨0, 0⟩, ap2 := ⟨0, 0⟩, ap3 := ⟨0, 0⟩ }

/-- Model of `Phase90Processor::prepareToPlay (newSampleRate, _)`:
`sampleRate = newSampleRate > 0.0 ? newSampleRate : 44100.0`, then
`resetState()` and the DC-blocker coefficient
`hpCoeff = exp(-2*pi*20/sampleRate)`. -/
noncomputable def prepareToPlay (s : State) (newSampleRate : ℝ) : State :=
  let sr := if 0 < newSampleRate then newSampleRate else 44100
  let s1 := resetState { s with sampleRate := sr }
  { s1 with hpCoeff := Real.exp (-2 * Real.pi * 20 / sr) }

/-- Per-sample allpass coefficient of one stage:
`f = baseFreq*(1 + depth*lfo)` with `depth = 0.85`, clamped to
`[5, 0.49*fs]`, then `a = (1 - t)/(1 + t)` with
`t = tan(pi*f/fs)` clamped to `[1e-8, 1e8]`. -/
noncomputable def stageCoeff (sr lfo baseFreq : ℝ) : ℝ :=
  let f := baseFreq * (1 + 0.85 * lfo)
  let fClamped := FxCommon.jlimit 5 (sr * 0.49) f
  let omega := 2 * Real.pi * fClamped / sr
  let t := Real.tan (omega * 0.5)
  let tClamped := FxCommon.jlimit 1e-8 1e8 t
  (1 - tClamped) / (1 + tClamped)

/-- One first-order allpass stage: `y = -a*x + x1 + a*y1`, then
`x1 = x; y1 = y`. -/
def allpassStep (a : ℝ) (st : FxCommon.AllpassState) (x : ℝ) :
    FxCommon.AllpassState × ℝ :=
  let y := -a * x + st.x1 + a * st.y1
  (⟨x, y⟩, y)

/-- The loop body of `Phase90Processor::processBlock` for one sample
(mono channel 0): sine LFO with wrap-around, the four stage coefficients,
the DC blocker `x = c*(y_prev + xRaw - x_prev)` and the cascade of four
allpass stages; the output is always the fully wet `y3`. -/
noncomputable def processSampleStep (phaseInc : ℝ) (s : State) (xRaw : ℝ) :
    State × ℝ :=
  let lfo := Real.sin s.lfoPhase
  let phase1 := s.lfoPhase + phaseInc
  let phase2 := if 2 * Real.pi ≤ phase1 then phase1 - 2 * Real.pi else phase1
  let a0 := stageCoeff s.sampleRate lfo 700
  let a1 := stageCoeff s.sampleRate lfo 1000
  let a2 := stageCoeff s.sampleRate lfo 1300
  let a3 := stageCoeff s.sampleRate lfo 1700
  let x := s.hpCoeff * (s.hpPrevOut + xRaw - s.hpPrevIn)
  let r0 := allpassStep a0 s.ap0 x
  let r1 := allpassStep a1 s.ap1 r0.2
  let r2 := allpassStep a2 s.ap2 r1.2
  let r3 := allpassStep a3 s.ap3 r2.2
  ({ s with lfoPhase := phase2, hpPrevIn := xRaw, hpPrevOut := x,
            ap0 := r0.1, ap1 := r1.1, ap2 := r2.1, ap3 := r3.1 }, r3.2)

/-- The sample loop of `processBlock`. -/
noncomputable def processSamples (phaseInc : ℝ) : State → List ℝ → State × List ℝ
  | s, [] => (s, [])
  | s, x :: rest =>
    let r := processSampleStep phaseInc s x
    let rest' := processSamples phaseInc r.1 rest
    (rest'.1, r.2 :: rest'.2)

/-- Model of `Phase90Processor::processBlock (buffer, _)` (mono): reads `rate` once
per block, computes `phaseInc = 2*pi*rate/fs` and runs the sample loop.
The body never reads the `bypass` parameter — the signal is always wet. -/
noncomputable def processBlock (p : Params) (s : State) (input : List ℝ) :
    State × List ℝ :=
  processSamples (2 * Real.pi * p.rate / s.sampleRate) s input

/-- Toggling the bypass parameter (editor footswitch / host automation
calls `bypass->setValueNotifyingHost`): only the stored parameter value
changes; the DSP state is untouched. -/
def setBypassParameter (proc : Params × State) (b : Bool) : Params × State :=
  ({ proc.1 with bypass := b }, proc.2)

end Phase90

/-- C2: the processed audio of the phaser is independent of the bypass
parameter: two runs of `processBlock` from identical initial state
(LFO phase, allpass and DC-blocker registers) and identical rate produce
identical output samples and identical final DSP state for any two bypass
values; and toggling bypass changes only the stored bypass parameter. -/
theorem c2_phaser_bypass_never_alters_audio :
    (∀ (rate : ℝ) (b1 b2 : Bool) (s : Phase90.State) (input : List ℝ),
        Phase90.processBlock ⟨rate, b1⟩ s input =
          Phase90.processBlock ⟨rate, b2⟩ s input) ∧
    (∀ (proc : Phase90.Params × Phase90.State) (b : Bool),
        (Phase90.setBypassParameter proc b).2 = proc.2 ∧
        (Phase90.setBypassParameter proc b).1.rate = proc.1.rate ∧
        (Phase90.setBypassParameter proc b).1.bypass = b) :=
  ⟨fun _ _ _ _ _ => rfl, fun _ _ => ⟨rfl, rfl, rfl⟩⟩

/-- C5 counterexample: `AnalogDelay::prepareToPlay` has no sample-rate
guard: preparing with `fs = 0` stores `0`, not the safe default `44100`
(the claim fails for "every effect processor"). -/
theorem c5_analog_delay_stores_zero_counterexample :
    (AnalogDelay.prepareToPlay ⟨1/2, 1/2, 1/2, false⟩ 0).sampleRate = 0 ∧
      ((0 : ℝ) ≠ 44100) := ⟨rfl, by norm_num⟩

/-- C5 (amended): only the `prepareToPlay` of the phaser substitutes the safe
default `44100` for a non-positive sample rate before computing its
coefficient; the `prepareToPlay` of the analog delay stores the incoming rate
unchanged for every input. -/
theorem c5_prepare_sample_rate_guard (fs : ℝ) (h : fs ≤ 0) (s : Phase90.State)
    (p : AnalogDelay.Params ℝ) :
    (Phase90.prepareToPlay s fs).sampleRate = 44100 ∧
      (AnalogDelay.prepareToPlay p fs).sampleRate = fs := by
  refine ⟨?_, rfl⟩
  dsimp only [Phase90.prepareToPlay, Phase90.resetState]
  rw [if_neg (not_lt.2 h)]

/-- C5 witness: the amended theorem applied at `fs = -1`. -/
theorem c5_prepare_sample_rate_guard_witness :
    (Phase90.prepareToPlay ⟨44100, 0, 0, 0, 0.995, ⟨0, 0⟩, ⟨0, 0⟩, ⟨0, 0⟩, ⟨0, 0⟩⟩
        (-1)).sampleRate = 44100 ∧
      (AnalogDelay.prepareToPlay ⟨1/2, 1/2, 1/2, false⟩ (-1)).sampleRate = -1 :=
  c5_prepare_sample_rate_guard (-1) (by norm_num) _ _

/-- Setting the cell value of an all-`a` list to `a` changes nothing
(the pitch-shifter cursor run feeds zeros into a zeroed buffer). -/
theorem replicate_set_same {α : Type} (a : α) (n i : ℕ) :
    (List.replicate n a).set i a = List.replicate n a := by
  induction n generalizing i with
  | zero => simp
  | succ m ih =>
    cases i with
    | zero => simp [List.replicate_succ]
    | succ j => simp [List.replicate_succ, ih]

/-- Reading any cell of an all-`a` list (default `a`) gives `a`. -/
theorem replicate_getD {α : Type} (a : α) (n i : ℕ) :
    (List.replicate n a).getD i a = a := by
  induction n generalizing i with
  | zero => simp
  | succ m ih =>
    cases i with
    | zero => simp [List.replicate_succ]
    | succ j => simp [List.replicate_succ, List.getD_cons_succ, ih]

namespace PitchShifter

/-- Model of `PitchShifter` parameters: the `blend` float and the four octave-voice
booleans plus `bypass`. -/
structure Params (α : Type) where
  blend : α
  up2 : Bool
  up1 : Bool
  down1 : Bool
  down2 : Bool
  bypass : Bool

/-- Model of `PitchShifter` DSP state: the 4096-sample ring buffer, write cursor,
read-safety offset, the four fractional voice positions and per-voice step
ratios, and the wet-path filter registers/coefficients.  Generic in the
scalar type: the cursor arithmetic is exact over `ℚ` (the run below uses
only integer-valued doubles), the full processor lives over `ℝ`. -/
structure State (α : Type) where
  buffer : List α
  bufferLen : ℤ
  writeIndex : ℤ
  readOffset : ℤ
  sampleRate : α
  voicePosUp2 : α
  voicePosUp1 : α
  voicePosDown1 : α
  voicePosDown2 : α
  stepUp2 : α
  stepUp1 : α
  stepDown1 : α
  stepDown2 : α
  wetLpState : α
  wetHpState : α
  lastHpIn : α
  lpfAlpha : α
  hpfAlpha : α

/-- Model of `std::fmod (x, y)` for the non-negative operands that occur here
(`pos ≥ 0`, `y = bufferLen > 0`), where truncation equals flooring. -/
def fmodPos {α : Type} [LinearOrderedField α] [FloorRing α] (x y : α) : α :=
  x - y * ((⌊x / y⌋ : ℤ) : α)

/-- Model of `PitchShifter::bufferIdxWrap (idx)`; C++ `%` truncates toward zero
(`Int.tmod`), hence the negative-remainder correction. -/
def bufferIdxWrap (bufferLen idx : ℤ) : ℤ :=
  if bufferLen ≤ 0 then 0
  else
    let i := idx.tmod bufferLen
    if i < 0 then i + bufferLen else i

/-- Model of `PitchShifter::readInterpolated (pos)`: normalizes `pos` into
`[0, bufferLen)` (the reference argument is written back — returned here as
the first component), then linearly interpolates between the two
neighbouring cells. -/
def readInterpolated {α : Type} [LinearOrderedField α] [FloorRing α]
    (bufferLen : ℤ) (buffer : List α) (pos : α) : α × α :=
  let p1 := if pos < 0 then
      pos + ((⌈|pos / (bufferLen : α)|⌉ : ℤ) : α) * (bufferLen : α)
    else pos
  let p2 := if (bufferLen : α) ≤ p1 then fmodPos p1 (bufferLen : α) else p1
  let i1 := (⌊p2⌋).tmod bufferLen
  let i2 := (i1 + 1).tmod bufferLen
  let frac := p2 - ((⌊p2⌋ : ℤ) : α)
  let s1 := buffer.getD i1.toNat 0
  let s2 := buffer.getD i2.toNat 0
  (p2, s1 + frac * (s2 - s1))

/-- The `processVoice` lambda of `PitchShifter::processSampleInternal`:
if the voice is enabled, clamp the position back to
`behindPos = bufferIdxWrap (writeIndex - readOffset)` whenever it drifted
more than half the buffer length away, read with interpolation, advance by
`step` and wrap at `bufferLen`.  Returns
`(new position, sample, position at the read)`. -/
def processVoice {α : Type} [LinearOrderedField α] [FloorRing α]
    (bufferLen : ℤ) (buffer : List α) (writeIndex readOffset : ℤ)
    (active : Bool) (pos step : α) : α × α × α :=
  if !active then (pos, 0, pos)
  else
    let behindPos : α := ((bufferIdxWrap bufferLen (writeIndex - readOffset) : ℤ) : α)
    let diff := pos - behindPos
    let pos1 := if (bufferLen : α) * (1/2) < diff ∨ diff < -((bufferLen : α) * (1/2))
      then behindPos else pos
    let r := readInterpolated bufferLen buffer pos1
    let pos2 := r.1 + step
    let pos3 := if (bufferLen : α) ≤ pos2 then fmodPos pos2 (bufferLen : α) else pos2
    (pos3, r.2, r.1)

/-- Model of `PitchShifter::processSampleInternal (in)`: bypass early-out, ring
write and cursor advance, voices in code order (`up2, up1, down1, down2`),
`wet = sum / activeCount` guarded by `activeCount > 0` (else `0`), wet
lowpass then DC-blocking highpass, dry/wet blend and
`tanh(out*5)*0.999`.  `tanhF` abstracts `std::tanh` (instantiated with
`Real.tanh` over `ℝ`; the cursor and filter state fields do not depend on
it).  In addition to the output sample, the position of the up2 voice at its
interpolated read is returned as an observation for the cursor claim. -/
def processSampleInternal {α : Type} [LinearOrderedField α] [FloorRing α]
    (tanhF : α → α) (p : Params α) (s : State α) (input : α) :
    State α × α × Option α :=
  if p.bypass then (s, input, none)
  else
    let buf1 := s.buffer.set s.writeIndex.toNat input
    let w1 := bufferIdxWrap s.bufferLen (s.writeIndex + 1)
    let vUp2 := processVoice s.bufferLen buf1 w1 s.readOffset true s.voicePosUp2 s.stepUp2
    let posUp2 := if p.up2 then vUp2.1 else s.voicePosUp2
    let sUp2 := if p.up2 then vUp2.2.1 else 0
    let vUp1 := processVoice s.bufferLen buf1 w1 s.readOffset true s.voicePosUp1 s.stepUp1
    let posUp1 := if p.up1 then vUp1.1 else s.voicePosUp1
    let sUp1 := if p.up1 then vUp1.2.1 else 0
    let vDown1 := processVoice s.bufferLen buf1 w1 s.readOffset true s.voicePosDown1 s.stepDown1
    let posDown1 := if p.down1 then vDown1.1 else s.voicePosDown1
    let sDown1 := if p.down1 then vDown1.2.1 else 0
    let vDown2 := processVoice s.bufferLen buf1 w1 s.readOffset true s.voicePosDown2 s.stepDown2
    let posDown2 := if p.down2 then vDown2.1 else s.voicePosDown2
    let sDown2 := if p.down2 then vDown2.2.1 else 0
    let activeCount : ℕ := (if p.up2 then 1 else 0) + (if p.up1 then 1 else 0) +
      (if p.down1 then 1 else 0) + (if p.down2 then 1 else 0)
    let sum := sUp2 + sUp1 + sDown1 + sDown2
    let wet := if 0 < activeCount then sum / ((activeCount : ℕ) : α) else 0
    let lpOut := s.lpfAlpha * wet + (1 - s.lpfAlpha) * s.wetLpState
    let hpOut := s.hpfAlpha * (s.wetHpState + lpOut - s.lastHpIn)
    let out := tanhF ((input * (1 - p.blend) + hpOut * p.blend) * 5) * (999/1000)
    ({ s with buffer := buf1, writeIndex := w1,
              voicePosUp2 := posUp2, voicePosUp1 := posUp1,
              voicePosDown1 := posDown1, voicePosDown2 := posDown2,
              wetLpState := lpOut, wetHpState := hpOut, lastHpIn := lpOut },
      out, if p.up2 then some vUp2.2.2 else none)

/-- Model of `PitchShifter::prepareToPlay (sampleRateIn, _)` (over `ℝ`): 4096-cell
zeroed ring buffer, cursors at `bufferIdxWrap (0 - 64) = 4032`, step
ratios `2^(semis/12)` for semis `24, 12, -12, -24`
(`recomputeRatios`), and `updateFilterCoeffs` — which substitutes `44100`
for a non-positive stored rate, computes the wet-path coefficients and
clamps them into `[0,1]`.  The wet filter registers are construction
state and are not reset here, so they are carried over. -/
noncomputable def prepareToPlay (s : State ℝ) (fs : ℝ) : State ℝ :=
  let initPos : ℝ := ((bufferIdxWrap 4096 (0 - 64) : ℤ) : ℝ)
  let sr := if fs ≤ 0 then 44100 else fs
  let lpf := clampSeqZeroOne (1 - Real.exp (-2 * Real.pi * 8000 / sr))
  let hpf := clampSeqZeroOne ((1 / (2 * Real.pi * 60)) / (1 / (2 * Real.pi * 60) + 1 / sr))
  { s with
    buffer := List.replicate 4096 0
    bufferLen := 4096
    writeIndex := 0
    readOffset := 64
    sampleRate := sr
    voicePosUp2 := initPos, voicePosUp1 := initPos
    voicePosDown1 := initPos, voicePosDown2 := initPos
    stepUp2 := (2 : ℝ) ^ ((24 : ℝ) / 12), stepUp1 := (2 : ℝ) ^ ((12 : ℝ) / 12)
    stepDown1 := (2 : ℝ) ^ ((-12 : ℝ) / 12), stepDown2 := (2 : ℝ) ^ ((-24 : ℝ) / 12)
    lpfAlpha := lpf, hpfAlpha := hpf }

/-- The step ratios and cursors produced by `prepareToPlay` are the exact
values `4, 2, 1/2, 1/4` and `4032` (all exactly representable as doubles
and as rationals), justifying the `ℚ` run below. -/
theorem prepareToPlay_cursor_fields (s : State ℝ) (fs : ℝ) :
    (prepareToPlay s fs).stepUp2 = 4 ∧ (prepareToPlay s fs).stepUp1 = 2 ∧
    (prepareToPlay s fs).stepDown1 = 1/2 ∧ (prepareToPlay s fs).stepDown2 = 1/4 ∧
    (prepareToPlay s fs).voicePosUp2 = 4032 ∧
    (prepareToPlay s fs).writeIndex = 0 ∧
    (prepareToPlay s fs).bufferLen = 4096 ∧
    (prepareToPlay s fs).readOffset = 64 := by
  have h24 : (2 : ℝ) ^ ((24 : ℝ) / 12) = 4 := by
    rw [show ((24 : ℝ) / 12) = ((2 : ℕ) : ℝ) by norm_num, Real.rpow_natCast]
    norm_num
  have h12 : (2 : ℝ) ^ ((12 : ℝ) / 12) = 2 := by
    rw [show ((12 : ℝ) / 12) = (1 : ℝ) by norm_num, Real.rpow_one]
  have hm12 : (2 : ℝ) ^ ((-12 : ℝ) / 12) = 1/2 := by
    rw [show ((-12 : ℝ) / 12) = ((-1 : ℤ) : ℝ) by norm_num, Real.rpow_intCast]
    norm_num
  have hm24 : (2 : ℝ) ^ ((-24 : ℝ) / 12) = 1/4 := by
    rw [show ((-24 : ℝ) / 12) = ((-2 : ℤ) : ℝ) by norm_num, Real.rpow_intCast]
    norm_num
  have hwrap : bufferIdxWrap 4096 (0 - 64) = 4032 := by decide
  refine ⟨h24, h12, hm12, hm24, ?_, rfl, rfl, rfl⟩
  show ((bufferIdxWrap 4096 (0 - 64) : ℤ) : ℝ) = 4032
  rw [hwrap]; norm_num

end PitchShifter

namespace PitchShifter

/-- The failing-input parameter set for the cursor claim: only the
+2-octave voice enabled, not bypassed (`blend` irrelevant). -/
def cursorTestParams : Params ℚ := ⟨1/2, true, false, false, false, false⟩

/-- The state right after `prepareToPlay` at 44100 Hz, transcribed over
`ℚ`: the cursor-relevant fields are exactly those of
`prepareToPlay` (see `prepareToPlay_cursor_fields`; every value is an
integer or dyadic rational, hence double-exact).  The two wet-filter
coefficients are transcendental in the source; they are given placeholder
values here because no cursor or write-index field depends on them (they
only feed the wet/output path). -/
def cursorTestInit : State ℚ :=
  { buffer := List.replicate 4096 0, bufferLen := 4096, writeIndex := 0, readOffset := 64
    sampleRate := 44100
    voicePosUp2 := 4032, voicePosUp1 := 4032, voicePosDown1 := 4032, voicePosDown2 := 4032
    stepUp2 := 4, stepUp1 := 2, stepDown1 := 1/2, stepDown2 := 1/4
    wetLpState := 0, wetHpState := 0, lastHpIn := 0, lpfAlpha := 1, hpfAlpha := 99/100 }

/-- The zero-input run of `processSampleInternal` from the prepared
state with only the up2 voice active. -/
def cursorRun : ℕ → State ℚ
  | 0 => cursorTestInit
  | n + 1 => (processSampleInternal (fun x => x) cursorTestParams (cursorRun n) 0).1

/-- First sample: the voice reads at `4032` (65 behind the write cursor),
then advances by its step `4` to `4036` while the write cursor moves to
`1`. -/
theorem cursorRun_one_eval :
    processSampleInternal (fun x => x) cursorTestParams cursorTestInit 0 =
      ({ cursorTestInit with writeIndex := 1, voicePosUp2 := 4036 }, 0, some 4032) := by
  have hw : bufferIdxWrap 4096 (0 + 1) = 1 := by decide
  have hbehind : bufferIdxWrap 4096 (1 - 64) = 4033 := by decide
  have htm : (4032 : ℤ).tmod 4096 = 4032 := by decide
  have htm2 : ((4032 : ℤ) + 1).tmod 4096 = 4033 := by decide
  simp only [processSampleInternal, cursorTestParams, cursorTestInit, processVoice,
    readInterpolated, fmodPos, replicate_set_same, hw, hbehind]
  norm_num [htm, htm2, replicate_getD]

end PitchShifter

/-- C7 (code-bug evaluation at the failing input): pitch shifter, only
the +2-octave voice enabled (`step = 4` exactly), zero input after
`prepareToPlay`.  At the second sample the interpolated read of the voice
happens at position `4036` while the write cursor is at `2`: the circular
distance `(writeIndex - readPos) mod 4096` is `62 < 64`, so the voice is
*not* kept at least `readOffset = 64` samples behind the write cursor —
the snap only fires past half the buffer length.  (Each further sample
shrinks the distance by 3, so the voice soon reads at and ahead of the
write cursor, i.e. not-yet-written samples, contradicting the source
comment "ensure read head stays behind write head by at least
readOffset".) -/
theorem c7_read_cursor_gap_below_safety_offset :
    ((PitchShifter.processSampleInternal (fun x => x) PitchShifter.cursorTestParams
        (PitchShifter.cursorRun 1) 0).2.2 = some 4036) ∧
    ((PitchShifter.processSampleInternal (fun x => x) PitchShifter.cursorTestParams
        (PitchShifter.cursorRun 1) 0).1.writeIndex = 2) ∧
    PitchShifter.fmodPos ((2 : ℚ) - 4036) 4096 = 62 ∧ ((62 : ℚ) < 64) := by
  have h1 : PitchShifter.cursorRun 1 =
      { PitchShifter.cursorTestInit with writeIndex := 1, voicePosUp2 := 4036 } := by
    have h0 : PitchShifter.cursorRun 1 =
        (PitchShifter.processSampleInternal (fun x => x) PitchShifter.cursorTestParams
          PitchShifter.cursorTestInit 0).1 := rfl
    rw [h0, PitchShifter.cursorRun_one_eval]
  rw [h1]
  have hw : PitchShifter.bufferIdxWrap 4096 (1 + 1) = 2 := by decide
  have hbehind : PitchShifter.bufferIdxWrap 4096 (2 - 64) = 4034 := by decide
  have htm : (4036 : ℤ).tmod 4096 = 4036 := by decide
  have htm2 : ((4036 : ℤ) + 1).tmod 4096 = 4037 := by decide
  refine ⟨?_, ?_, by norm_num [PitchShifter.fmodPos], by norm_num⟩ <;>
    (simp only [PitchShifter.processSampleInternal, PitchShifter.cursorTestParams,
      PitchShifter.cursorTestInit, PitchShifter.processVoice,
      PitchShifter.readInterpolated, PitchShifter.fmodPos, replicate_set_same, hw, hbehind]
     norm_num [htm, htm2, replicate_getD])

/-- C10: the wet sum of the pitch shifter is divided by the number of active
voices only when at least one voice is enabled.  With zero active voices
the wet signal is `0` (no division) and the output reduces to the
filtered dry/blend mix; with exactly one active voice (up2) the wet
signal is the interpolated sample of that voice divided by the count `1`. -/
theorem c10_wet_division_guarded_by_active_voices :
    (∀ {α : Type} [LinearOrderedField α] [FloorRing α]
        (tanhF : α → α) (blend : α) (s : PitchShifter.State α) (input : α),
      (PitchShifter.processSampleInternal tanhF ⟨blend, false, false, false, false, false⟩
          s input).2.1 =
        tanhF ((input * (1 - blend) +
          (s.hpfAlpha * (s.wetHpState + ((1 - s.lpfAlpha) * s.wetLpState) - s.lastHpIn))
            * blend) * 5) * (999/1000)) ∧
    (∀ {α : Type} [LinearOrderedField α] [FloorRing α]
        (tanhF : α → α) (blend : α) (s : PitchShifter.State α) (input : α),
      (PitchShifter.processSampleInternal tanhF ⟨blend, true, false, false, false, false⟩
          s input).2.1 =
        (let v := PitchShifter.processVoice s.bufferLen
            (s.buffer.set s.writeIndex.toNat input)
            (PitchShifter.bufferIdxWrap s.bufferLen (s.writeIndex + 1)) s.readOffset true
            s.voicePosUp2 s.stepUp2
         let wet := (v.2.1 + 0 + 0 + 0) / ((1 : ℕ) : α)
         let lpOut := s.lpfAlpha * wet + (1 - s.lpfAlpha) * s.wetLpState
         let hpOut := s.hpfAlpha * (s.wetHpState + lpOut - s.lastHpIn)
         tanhF ((input * (1 - blend) + hpOut * blend) * 5) * (999/1000))) := by
  constructor
  · intro α instF instR tanhF blend s input
    simp [PitchShifter.processSampleInternal]
  · intro α instF instR tanhF blend s input
    simp [PitchShifter.processSampleInternal]

namespace ChromaticTuner

/-- Model of `bufferSize` is assigned once in the constructor (`bufferSize = 8192`)
and never changed. -/
def bufferSize : ℕ := 8192

/-- Model of `ChromaticTuner` state: stored sample rate, the `useFlats` parameter,
the 8192-sample circular analysis buffer with its write position, and the
three published detection results. -/
structure State where
  sampleRate : ℝ
  useFlats : Bool
  circularBuffer : List ℝ
  writePos : ℕ
  detectedFrequency : ℝ
  detectedNote : String
  detectedCents : ℝ

/-- Model of `static_cast<int>` of a double: truncation toward zero. -/
noncomputable def truncToInt (x : ℝ) : ℤ := if x < 0 then ⌈x⌉ else ⌊x⌋

/-- The note-name tables of `ChromaticTuner::frequencyToNote`. -/
def noteNamesSharps : List String :=
  ["C", "C#", "D", "D#", "E", "F"] ++ ["F#", "G", "G#", "A", "A#", "B"]

/-- Flat spellings. -/
def noteNamesFlats : List String :=
  ["C", "Db", "D", "Eb", "E", "F"] ++ ["Gb", "G", "Ab", "A", "Bb", "B"]

/-- Model of `ChromaticTuner::frequencyToNote (frequency)`: frequencies outside
`[20, 5000]` Hz set the note label to the empty string and the cents to
`0` and return — the `detectedFrequency` register is *not* touched.
Otherwise `midiNote = 69 + 12*log2(f/440)`, the nearest note
(`std::round`, which for the positive values arising here equals
`⌊x + 1/2⌋`), the signed cents deviation and the note-name string
(C++ `%` and `/` truncate: `Int.tmod`/`Int.tdiv`). -/
noncomputable def frequencyToNote (s : State) (frequency : ℝ) : State :=
  if frequency < 20 ∨ frequency > 5000 then
    { s with detectedNote := "", detectedCents := 0 }
  else
    let midiNote := 69 + 12 * Real.logb 2 (frequency / 440)
    let nearestNote : ℤ := round midiNote
    let cents := (midiNote - (nearestNote : ℝ)) * 100
    let noteInOctave := nearestNote.tmod 12
    let octave := nearestNote.tdiv 12 - 1
    let names := if s.useFlats then noteNamesFlats else noteNamesSharps
    { s with detectedNote := names.getD noteInOctave.toNat "" ++ toString octave
             detectedCents := cents }

/-- Lines 156–161 of `ChromaticTuner::detectPitch`, the publication of a
positive best period: `detectedFrequency = sampleRate / bestPeriod;`
followed by `frequencyToNote (detectedFrequency)`. -/
noncomputable def publishDetectedFrequency (s : State) (f : ℝ) : State :=
  frequencyToNote { s with detectedFrequency := f } f

/-- Model of `ChromaticTuner::detectPitch ()`: linearize the circular buffer
oldest-to-newest, gate on RMS `< 0.01`, search the unnormalized
autocorrelation over lags `[minPeriod, min maxPeriod (bufferSize/2))`
(empty when the bounds cross; a negative lag would index out of bounds in
the C++ and never occurs on an executed path), and publish either
`sampleRate / bestPeriod` or the empty result. -/
noncomputable def detectPitch (s : State) : State :=
  let linearBuffer := (List.range bufferSize).map
    (fun i => s.circularBuffer.getD ((s.writePos + i) % bufferSize) 0)
  let rms := Real.sqrt ((linearBuffer.map (fun x => x * x)).sum / (bufferSize : ℝ))
  if rms < 0.01 then
    { s with detectedFrequency := 0, detectedNote := "", detectedCents := 0 }
  else
    let minPeriod := truncToInt (s.sampleRate / 1200)
    let maxPeriod := truncToInt (s.sampleRate / 60)
    let hi := min maxPeriod ((bufferSize : ℤ) / 2)
    let lags := (List.range (hi - minPeriod).toNat).map (fun k : ℕ => minPeriod + (k : ℤ))
    let corr := fun (lag : ℤ) =>
      ((List.range (bufferSize / 2)).map
        (fun i => linearBuffer.getD i 0 * linearBuffer.getD ((i : ℤ) + lag).toNat 0)).sum
    let best := lags.foldl
      (fun (acc : ℝ × ℤ) lag => let c := corr lag; if acc.1 < c then (c, lag) else acc)
      (0, 0)
    if 0 < best.2 then publishDetectedFrequency s (s.sampleRate / (best.2 : ℝ))
    else { s with detectedFrequency := 0, detectedNote := "", detectedCents := 0 }

/-- Model of `ChromaticTuner::processBlock (buffer, _)`: copy the block into the
circular analysis buffer (advancing `writePos` mod 8192) and run
`detectPitch`.  The audio buffer is only read (`getReadPointer`); no
statement stores to it, so the samples of the block pass through unchanged. -/
noncomputable def processBlock (s : State) (input : List ℝ) : State × List ℝ :=
  let s1 := input.foldl
    (fun st x =>
      { st with circularBuffer := st.circularBuffer.set st.writePos x
                writePos := (st.writePos + 1) % bufferSize }) s
  (detectPitch s1, input)

/-- Model of `detectPitch` never moves the write cursor. -/
theorem detectPitch_writePos (s : State) : (detectPitch s).writePos = s.writePos := by
  unfold detectPitch publishDetectedFrequency frequencyToNote
  dsimp only
  split_ifs <;> rfl

/-- The analysis-write loop advances the write cursor by the block length
modulo the buffer size (given the in-range cursor invariant the
constructor and `prepareToPlay` establish). -/
theorem foldWrite_writePos (input : List ℝ) (s : State)
    (h : s.writePos < bufferSize) :
    (input.foldl
      (fun st x =>
        { st with circularBuffer := st.circularBuffer.set st.writePos x
                  writePos := (st.writePos + 1) % bufferSize }) s).writePos =
      (s.writePos + input.length) % bufferSize := by
  induction input generalizing s with
  | nil => simp [Nat.mod_eq_of_lt h]
  | cons x xs ih =>
    rw [List.foldl_cons]
    rw [ih _ (Nat.mod_lt _ (by norm_num [bufferSize]))]
    simp only [List.length_cons, Nat.mod_add_mod]
    congr 1
    omega

end ChromaticTuner

/-- C8 counterexample: when the detection publication path
(`detectedFrequency = fs/bestPeriod; frequencyToNote(...)`) is exercised
with an out-of-range frequency (`10000` Hz), the note label and cents are
emptied but the reported frequency *keeps* the out-of-range value `10000`
— it is not reset to `0` as the claim states. -/
theorem c8_out_of_range_keeps_frequency_counterexample :
    (ChromaticTuner.publishDetectedFrequency
        ⟨44100, false, List.replicate 8192 0, 0, 0, "", 0⟩ 10000).detectedFrequency
      = 10000 ∧
    (ChromaticTuner.publishDetectedFrequency
        ⟨44100, false, List.replicate 8192 0, 0, 0, "", 0⟩ 10000).detectedNote = "" ∧
    ((10000 : ℝ) ≠ 0) := by
  refine ⟨?_, ?_, by norm_num⟩ <;>
    · unfold ChromaticTuner.publishDetectedFrequency ChromaticTuner.frequencyToNote
      rw [if_pos (Or.inr (by norm_num))]

/-- C8 (amended): whenever `frequencyToNote` receives a frequency outside
`[20, 5000]` Hz it reports an empty result in the sense that the note
label becomes the empty string and the cents deviation `0`, while the
published `detectedFrequency` register retains whatever value the caller
stored (the code never zeroes it in this branch). -/
theorem c8_out_of_range_empties_note_and_cents (s : ChromaticTuner.State) (f : ℝ)
    (h : f < 20 ∨ f > 5000) :
    (ChromaticTuner.publishDetectedFrequency s f).detectedNote = "" ∧
    (ChromaticTuner.publishDetectedFrequency s f).detectedCents = 0 ∧
    (ChromaticTuner.publishDetectedFrequency s f).detectedFrequency = f := by
  unfold ChromaticTuner.publishDetectedFrequency ChromaticTuner.frequencyToNote
  rw [if_pos h]
  exact ⟨rfl, rfl, rfl⟩

/-- C8 witness: the amended theorem applied at `f = 10000`. -/
theorem c8_out_of_range_empties_witness :
    (ChromaticTuner.publishDetectedFrequency
        ⟨48000, true, [], 5, 440, "A4", 0⟩ 10000).detectedNote = "" ∧
    (ChromaticTuner.publishDetectedFrequency
        ⟨48000, true, [], 5, 440, "A4", 0⟩ 10000).detectedCents = 0 ∧
    (ChromaticTuner.publishDetectedFrequency
        ⟨48000, true, [], 5, 440, "A4", 0⟩ 10000).detectedFrequency = 10000 :=
  c8_out_of_range_empties_note_and_cents _ 10000 (Or.inr (by norm_num))

/-- C9: the tuner is analysis-only at its audio interface: `processBlock`
returns the audio samples unchanged for every state and every block,
while the analysis side-state advances — the write cursor moves by the
block length modulo 8192 (shown under the cursor-in-range invariant that
construction and `prepareToPlay` establish). -/
theorem c9_tuner_audio_passthrough :
    (∀ (s : ChromaticTuner.State) (input : List ℝ),
        (ChromaticTuner.processBlock s input).2 = input) ∧
    (∀ (s : ChromaticTuner.State) (input : List ℝ),
        s.writePos < ChromaticTuner.bufferSize →
        (ChromaticTuner.processBlock s input).1.writePos =
          (s.writePos + input.length) % ChromaticTuner.bufferSize) := by
  constructor
  · intro s input; rfl
  · intro s input h
    show (ChromaticTuner.detectPitch _).writePos = _
    rw [ChromaticTuner.detectPitch_writePos, ChromaticTuner.foldWrite_writePos input s h]

/-- C9 witness: the passthrough theorem applied at a concrete state and
two-sample block. -/
theorem c9_tuner_audio_passthrough_witness :
    (ChromaticTuner.processBlock
        ⟨44100, false, List.replicate 8192 0, 0, 0, "", 0⟩ [1, 1/2]).1.writePos =
      (0 + 2) % ChromaticTuner.bufferSize :=
  c9_tuner_audio_passthrough.2 ⟨44100, false, List.replicate 8192 0, 0, 0, "", 0⟩
    [1, 1/2] (by norm_num [ChromaticTuner.bufferSize])
